import Mathlib

/-!
# Wireworld engine: shallow embedding and verification

This file embeds the simulation core of `wireworld.py` (the Wireworld
cellular automaton demo) in Lean and proves/refutes the specification
claims about it.

A grid is a list of rows, each row a list of Python integers (`Int`),
mirroring the `numpy` 2-D integer array `array_states`.  Python
exceptions are modelled with `Except Err`.  Functions keep the source's
names (`cleanse_state`, `cleanse_array`, `check_2d_array`,
`cycle_states`, `resize_array`, `update_states`, `limit_edit_box`, ...).
-/

namespace Wireworld

/-- A grid of cell states: a list of rows (the `numpy` array `array_states`).
Cell values are Python integers; valid Wireworld states are `0,1,2,3`. -/
abbrev Grid := List (List Int)

/-- A change record `(row, column, new_state)` as produced by `cycle_states`
and consumed by `update_states`.  Coordinates are Python integers (numpy
indexing accepts negative indices, so the coordinate type is `Int`). -/
abbrev ChangeRecord := Int × Int × Int

/-- The Python exceptions raised by the engine (all are bare `Exception`s
with distinguishing messages in the source; `outOfBounds` stands for the
`IndexError` numpy raises on an out-of-range index). -/
inductive Err where
  | invalidShape   -- "Input array format error. Must be 2 dimensional array"
  | invalidFace    -- "Invalid face value. Must be on of (n, e, s, w)"
  | invalidResize  -- "Invalid ranks value. Must be more or less than 0"
  | outOfBounds    -- numpy IndexError: index out of bounds
  deriving DecidableEq, Repr

/-- `valid_states = (0, 1, 2, 3)` from the source module header. -/
def valid_states : List Int := [0, 1, 2, 3]

/-- Source `cleanse_state` (line 816): a state outside `valid_states` is
replaced by `valid_states[0]`, i.e. `0` (Empty). -/
def cleanse_state (state : Int) : Int :=
  if state ∈ valid_states then state else 0

/-- Source `check_2d_array` (line 824): `np.array(array_input).ndim == 2`.
For a list of lists this holds iff the outer list is nonempty and all rows
have equal length (a ragged input becomes a 1-dimensional object array in
the numpy of the source's era, so it fails the check). -/
def check_2d_array (g : Grid) : Bool :=
  !g.isEmpty && g.all (fun r => r.length == (g.headD []).length)

/-- Source `cleanse_array` (line 841): raises unless `check_2d_array`;
then runs `for rx, r in enumerate(array_input): for cx, c in enumerate(r):
c = cleanse_state(c)` and returns `array_input`.  The loop body only
rebinds the local variable `c`; it never writes into the array, so the
traversal has no effect and the input is returned unchanged. -/
def cleanse_array (g : Grid) : Except Err Grid :=
  if check_2d_array g then .ok g else .error .invalidShape

/-- The cell value at row `r`, column `c` (0 when out of range; all uses in
the theorems are guarded by bounds). -/
def cell (g : Grid) (r c : Nat) : Int :=
  (g.getD r []).getD c 0

/-- Source `cycle_states` head count (lines 871-875): the numpy slice
`array_input[max(rx-1,0) : rx+2, max(cx-1,0) : cx+2]` (negative lower
limits are clamped to 0 by the source's `max(x, 0)`, which `Nat`
subtraction reproduces; upper limits are clipped by slicing itself),
then `np.where(slice == 1, 1, 0)` summed: the number of entries equal
to `1` in the clipped window.  The window includes the centre cell, but
the centre is a Conductor (`3`) wherever `head_check` is consulted. -/
def head_check (g : Grid) (rx cx : Nat) : Nat :=
  (((g.drop (rx - 1)).take (rx + 2 - (rx - 1))).map
    (fun r => ((r.drop (cx - 1)).take (cx + 2 - (cx - 1))).countP
      (fun v => v == 1))).sum

/-- Source `cycle_states` per-cell future state (lines 863-878):
`state in (1, 2)` gives `c + 1`; `state == 3` gives `1` when the head
count is 1 or 2; otherwise `None` (no change record). -/
def state_future (g : Grid) (rx cx : Nat) (state : Int) : Option Int :=
  if state = 1 ∨ state = 2 then some (state + 1)
  else if state = 3 then
    if head_check g rx cx = 1 ∨ head_check g rx cx = 2 then some 1 else none
  else none

/-- The double `enumerate` loop of source `cycle_states` (lines 861-884):
for each coordinate, append `[rx, cx, state_future]` when a future state
was computed.  `enumerate` is embedded as `List.range` indices with
`getD` lookups. -/
def cycle_loop (g : Grid) : List ChangeRecord :=
  (List.range g.length).flatMap (fun rx =>
    (List.range (g.getD rx []).length).filterMap (fun cx =>
      (state_future g rx cx ((g.getD rx []).getD cx 0)).map
        (fun s => ((rx : Int), (cx : Int), s))))

/-- Source `cycle_states` (line 853): first `cleanse_array` (which raises
on a non-2-D input and otherwise returns the array unchanged), then the
change-collecting loop.  All future states are read from the pre-step
array `array_input`; nothing is written before the list is returned. -/
def cycle_states (g : Grid) : Except Err (List ChangeRecord) :=
  match cleanse_array g with
  | .error e => .error e
  | .ok arr => .ok (cycle_loop arr)

/-- numpy index resolution for one axis: an index `i` with `0 ≤ i < dim`
is used as-is; a negative `i` with `-dim ≤ i` wraps to `i + dim`; anything
else raises `IndexError`. -/
def np_index (dim : Nat) (i : Int) : Option Nat :=
  if 0 ≤ i ∧ i < (dim : Int) then some i.toNat
  else if -(dim : Int) ≤ i ∧ i < 0 then some (i + dim).toNat
  else none

/-- In-bounds single-cell write with `Nat` coordinates (the effect of
`array[row][column] = state` once both indices resolved). -/
def setCell (g : Grid) (r c : Nat) (s : Int) : Grid :=
  g.set r ((g.getD r []).set c s)

/-- The numpy assignment `array_states[row][column] = state` of source
`update_states` (line 547): both indices are resolved (with negative
wrap-around) against the current array; failure is an `IndexError`. -/
def np_set2 (g : Grid) (row col state : Int) : Except Err Grid :=
  match np_index g.length row with
  | none => .error .outOfBounds
  | some r =>
    match np_index (g.getD r []).length col with
    | none => .error .outOfBounds
    | some c => .ok (setCell g r c state)

/-- Source `WireWorldInstance.update_states` (lines 536-555), engine part:
each `(row, column, state)` record is written into `array_states` in
order.  (`enforce_coords_array` at line 544 evaluates a boolean
expression and discards it, so it never raises on a list of triples and
is not modelled; the trailing GUI refreshes are out of scope.  In Python
the writes mutate in place, so on an `IndexError` the earlier records
remain applied; the `Except` model returns only the error.) -/
def update_states (g : Grid) (changes : List ChangeRecord) : Except Err Grid :=
  changes.foldlM (fun acc t => np_set2 acc t.1 t.2.1 t.2.2) g

/-- Source `WireWorldInstance.advance_step` (line 631): compute the change
set from the current array, then commit it with `update_states`. -/
def advance_step (g : Grid) : Except Err Grid :=
  match cycle_states g with
  | .error e => .error e
  | .ok changes => update_states g changes

/-- Applying a change set onto an (independent, pure) copy of a grid:
each record sets its cell.  This is the spec's reading of "applying every
ChangeRecord of `diff(A,B)` onto a copy of A"; coordinates are cast by
`Int.toNat` (the records produced by `cycle_states` are nonnegative). -/
def applyChanges (g : Grid) (changes : List ChangeRecord) : Grid :=
  changes.foldl (fun acc t => setCell acc t.1.toNat t.2.1.toNat t.2.2) g

/-- Modelled from the claim's words: the number of ElectronHead (`1`)
cells in the Moore neighborhood of `(r, c)` clipped to the grid bounds —
all in-bounds positions `(i, j)` at Chebyshev distance exactly 1 from
`(r, c)` (no wrap-around, no padding, the cell itself excluded) whose
value is `1`.  Compared against the source-derived `head_check`. -/
def mooreHeads (g : Grid) (r c : Nat) : Nat :=
  ((List.range g.length).map (fun i =>
    ((List.range (g.getD i []).length).filter (fun j =>
      decide ((i + 1 = r ∨ i = r ∨ i = r + 1) ∧
              (j + 1 = c ∨ j = c ∨ j = c + 1) ∧
              ¬(i = r ∧ j = c) ∧
              (g.getD i []).getD j 0 = 1))).length)).sum

/-- Source `resize_array` (lines 918-968).  Faces are the strings
`"n"`, `"e"`, `"s"`, `"w"` (North/East/South/West).  Deletion
(`ranks < 0`) is `np.delete` with slice `[:abs_ranks]` (n, w) or
`[-abs_ranks:]` (e, s) — numpy clamps the slice to the available size,
so deleting more than exists removes everything on that axis without an
error.  Insertion (`ranks > 0`) prepends (`np.insert` at 0, faces n, w)
or appends (`np.append`, faces e, s) `abs_ranks` all-zero rows/columns.
`ranks == 0` raises.  Returns `(array_output, axis_shift, rank_shift)`
with `axis_shift = 0` for n/s and `1` for e/w, and `rank_shift = ranks`
for n/w and `0` for e/s (line 963). -/
def resize_array (g : Grid) (face : String) (ranks : Int) :
    Except Err (Grid × Nat × Int) :=
  if ¬ check_2d_array g then .error .invalidShape
  else
    let abs_ranks : Nat := ranks.natAbs
    let rows := g.length
    let cols := (g.headD []).length
    if face ≠ "n" ∧ face ≠ "s" ∧ face ≠ "e" ∧ face ≠ "w" then
      .error .invalidFace
    else
      let axis_shift : Nat := if face = "n" ∨ face = "s" then 0 else 1
      let rank_shift : Int := if face = "n" ∨ face = "w" then ranks else 0
      if ranks < 0 then       -- deletion mode
        let array_output :=
          if face = "n" then g.drop abs_ranks
          else if face = "s" then g.take (rows - abs_ranks)
          else if face = "w" then g.map (fun r => r.drop abs_ranks)
          else g.map (fun r => r.take (cols - abs_ranks))
        .ok (array_output, axis_shift, rank_shift)
      else if ranks > 0 then  -- addition mode
        let array_output :=
          if face = "n" then List.replicate abs_ranks (List.replicate cols 0) ++ g
          else if face = "s" then g ++ List.replicate abs_ranks (List.replicate cols 0)
          else if face = "w" then g.map (fun r => List.replicate abs_ranks 0 ++ r)
          else g.map (fun r => r ++ List.replicate abs_ranks 0)
        .ok (array_output, axis_shift, rank_shift)
      else
        .error .invalidResize

/-- The engine-relevant state of a `WireWorldInstance`: the state array,
the edit box ("viewport") top-left corner `edit_top_left` and its
dimensions `edit_dimensions` (both Python 2-element lists, modelled as
pairs; axis 0 = rows, axis 1 = columns). -/
structure WW where
  array_states : Grid
  edit_top_left : Int × Int
  edit_dimensions : Int × Int
  deriving DecidableEq, Repr

/-- Source `wipe_wireworld` (lines 658-665): `array_states` becomes the
single-cell grid `[[0]]`, `edit_top_left` is kept if already present
(it always is after `__init__`), and `edit_dimensions` is reset to
`[10, 10]`.  (`generations` is GUI bookkeeping, not modelled.) -/
def wipe_wireworld (w : WW) : WW :=
  { w with array_states := [[0]], edit_dimensions := (10, 10) }

/-- The instance state right after `__init__` (line 44 calls
`wipe_wireworld` with no `edit_top_left` yet, so it gets `[0, 0]`). -/
def initialWW : WW :=
  { array_states := [[0]], edit_top_left := (0, 0), edit_dimensions := (10, 10) }

/-- Source `parse_array` (lines 521-534), engine part: cleanse the input
(raising on a non-2-D array), wipe the instance, then store the input as
`array_states`.  Window/map creation is out of scope. -/
def parse_array (w : WW) (array_input : Grid) : Except Err WW :=
  match cleanse_array array_input with
  | .error e => .error e
  | .ok arr => .ok { wipe_wireworld w with array_states := arr }

/-- Source `limit_edit_box` (lines 667-671): clamp a candidate top-left
value on `axis` to `min(new_value, shape[axis] - edit_dimensions[axis])`
and then to `max(·, 0)`. -/
def limit_edit_box (w : WW) (axis : Nat) (new_value : Int) : Int :=
  let array_shape : Int × Int :=
    ((w.array_states.length : Int), ((w.array_states.headD []).length : Int))
  let dim := if axis = 0 then array_shape.1 else array_shape.2
  let vdim := if axis = 0 then w.edit_dimensions.1 else w.edit_dimensions.2
  max (min new_value (dim - vdim)) 0

/-- Source `move_edit_box` (lines 673-678): offset the top-left on `axis`
by `ranks`, clamped through `limit_edit_box`.  (`edit_dimensions` is not
touched.) -/
def move_edit_box (w : WW) (axis : Nat) (ranks : Int) : WW :=
  let cur := if axis = 0 then w.edit_top_left.1 else w.edit_top_left.2
  let new_value := limit_edit_box w axis (cur + ranks)
  if axis = 0 then { w with edit_top_left := (new_value, w.edit_top_left.2) }
  else { w with edit_top_left := (w.edit_top_left.1, new_value) }

/-! ## Basic lemmas about cells and single-cell writes -/

/-- A change record lies inside the bounds of a grid (with a nonnegative
row and column, as numpy's non-wrapping case requires). -/
def inBounds (g : Grid) (t : ChangeRecord) : Prop :=
  0 ≤ t.1 ∧ t.1 < (g.length : Int) ∧ 0 ≤ t.2.1 ∧
    t.2.1 < (((g.getD t.1.toNat []).length : Nat) : Int)

theorem length_setCell (g : Grid) (r c : Nat) (s : Int) :
    (setCell g r c s).length = g.length :=
  List.length_set ..

theorem getD_setCell_elem (g : Grid) (r c : Nat) (s : Int) (i : Nat) :
    (setCell g r c s).getD i [] =
      if r = i ∧ r < g.length then (g.getD r []).set c s else g.getD i [] := by
  simp only [setCell, List.getD_eq_getElem?_getD, List.getElem?_set]
  by_cases h1 : r = i
  · subst h1
    by_cases h2 : r < g.length
    · simp [h2, List.getElem?_eq_getElem h2]
    · simp [h2, List.getElem?_eq_none (Nat.le_of_not_lt h2)]
  · simp [h1]

theorem getD_set_ne {α : Type} (l : List α) (i j : Nat) (a d : α) (h : i ≠ j) :
    (l.set i a).getD j d = l.getD j d := by
  simp [List.getD_eq_getElem?_getD, List.getElem?_set_ne h]

theorem getD_set_self {α : Type} (l : List α) (i : Nat) (a d : α)
    (h : i < l.length) : (l.set i a).getD i d = a := by
  simp [List.getD_eq_getElem?_getD, List.getElem?_set_self h]

theorem length_getD_setCell (g : Grid) (r c : Nat) (s : Int) (i : Nat) :
    ((setCell g r c s).getD i []).length = (g.getD i []).length := by
  rw [getD_setCell_elem]
  by_cases h : r = i ∧ r < g.length
  · rcases h with ⟨h1, h2⟩
    subst h1
    simp [h2, List.length_set]
  · simp [h]

theorem cell_setCell_same (g : Grid) (r c : Nat) (s : Int)
    (hr : r < g.length) (hc : c < (g.getD r []).length) :
    cell (setCell g r c s) r c = s := by
  rw [cell, getD_setCell_elem, if_pos ⟨rfl, hr⟩, getD_set_self _ _ _ _ hc]

theorem cell_setCell_ne (g : Grid) (r c : Nat) (s : Int) (i j : Nat)
    (h : ¬(r = i ∧ c = j)) :
    cell (setCell g r c s) i j = cell g i j := by
  rw [cell, cell, getD_setCell_elem]
  by_cases h1 : r = i ∧ r < g.length
  · rcases h1 with ⟨h1, h2⟩
    subst h1
    have hcj : c ≠ j := fun hcj => h ⟨rfl, hcj⟩
    rw [if_pos ⟨rfl, h2⟩, getD_set_ne _ _ _ _ _ hcj]
  · rw [if_neg h1]

theorem inBounds_setCell (g : Grid) (a b : Nat) (s : Int) (t : ChangeRecord)
    (h : inBounds g t) : inBounds (setCell g a b s) t := by
  rcases h with ⟨h1, h2, h3, h4⟩
  exact ⟨h1, by rwa [length_setCell], h3, by rwa [length_getD_setCell]⟩

theorem np_set2_ok (g : Grid) (row col s : Int)
    (h1 : 0 ≤ row) (h2 : row < (g.length : Int))
    (h3 : 0 ≤ col) (h4 : col < ((g.getD row.toNat []).length : Int)) :
    np_set2 g row col s = .ok (setCell g row.toNat col.toNat s) := by
  have hr : np_index g.length row = some row.toNat := by
    rw [np_index, if_pos ⟨h1, h2⟩]
  have hc : np_index (g.getD row.toNat []).length col = some col.toNat := by
    rw [np_index, if_pos ⟨h3, h4⟩]
  simp only [np_set2, hr, hc]

/-! ## `update_states` succeeds and equals the pure application -/

theorem update_states_ok :
    ∀ (L : List ChangeRecord) (g : Grid), (∀ t ∈ L, inBounds g t) →
      update_states g L = .ok (applyChanges g L) := by
  intro L
  induction L with
  | nil => intro g _; rfl
  | cons t L ih =>
    intro g hb
    obtain ⟨h1, h2, h3, h4⟩ := hb t (List.mem_cons_self ..)
    have hset : np_set2 g t.1 t.2.1 t.2.2 = .ok (setCell g t.1.toNat t.2.1.toNat t.2.2) :=
      np_set2_ok g t.1 t.2.1 t.2.2 h1 h2 h3 h4
    have heq : update_states g (t :: L) =
        update_states (setCell g t.1.toNat t.2.1.toNat t.2.2) L := by
      rw [update_states, List.foldlM_cons, hset]
      rfl
    rw [heq, ih _ (fun u hu => inBounds_setCell _ _ _ _ u (hb u (List.mem_cons_of_mem _ hu)))]
    rfl

theorem applyChanges_cons (g : Grid) (t : ChangeRecord) (L : List ChangeRecord) :
    applyChanges g (t :: L) = applyChanges (setCell g t.1.toNat t.2.1.toNat t.2.2) L :=
  rfl

/-- A coordinate no record mentions is left untouched by applying the
change set. -/
theorem cell_applyChanges_not_mem :
    ∀ (L : List ChangeRecord) (g : Grid) (r c : Nat),
      (∀ t ∈ L, 0 ≤ t.1 ∧ 0 ≤ t.2.1) →
      (∀ s, ((r : Int), (c : Int), s) ∉ L) →
      cell (applyChanges g L) r c = cell g r c := by
  intro L
  induction L with
  | nil => intro g r c _ _; rfl
  | cons t L ih =>
    obtain ⟨a, b, s⟩ := t
    intro g r c hpos hni
    rw [applyChanges_cons,
      ih _ r c (fun u hu => hpos u (List.mem_cons_of_mem _ hu))
        (fun s' hs' => hni s' (List.mem_cons_of_mem _ hs'))]
    apply cell_setCell_ne
    rintro ⟨hr, hc⟩
    obtain ⟨hp, hq⟩ := hpos (a, b, s) (List.mem_cons_self ..)
    simp only at hp hq hr hc
    have ha : a = (r : Int) := by omega
    have hb : b = (c : Int) := by omega
    exact hni s (ha ▸ hb ▸ List.mem_cons_self ..)

/-- If all records at `(r, c)` carry the same state `v` and one such
record is present, the applied grid holds `v` at `(r, c)`. -/
theorem cell_applyChanges_mem :
    ∀ (L : List ChangeRecord) (g : Grid) (r c : Nat) (v : Int),
      (∀ t ∈ L, inBounds g t) →
      (∀ s, ((r : Int), (c : Int), s) ∈ L → s = v) →
      ((r : Int), (c : Int), v) ∈ L →
      cell (applyChanges g L) r c = v := by
  intro L
  induction L with
  | nil => intro g r c v _ _ hmem; cases hmem
  | cons t L ih =>
    intro g r c v hb huniq hmem
    have hbL : ∀ u ∈ L, inBounds (setCell g t.1.toNat t.2.1.toNat t.2.2) u :=
      fun u hu => inBounds_setCell _ _ _ _ u (hb u (List.mem_cons_of_mem _ hu))
    rw [applyChanges_cons]
    by_cases hex : ∃ s, ((r : Int), (c : Int), s) ∈ L
    · obtain ⟨s, hs⟩ := hex
      have hsv : s = v := huniq s (List.mem_cons_of_mem _ hs)
      exact ih _ r c v hbL
        (fun s' hs' => huniq s' (List.mem_cons_of_mem _ hs')) (hsv ▸ hs)
    · have ht : t = ((r : Int), (c : Int), v) := by
        rcases List.mem_cons.mp hmem with h | h
        · exact h.symm
        · exact absurd ⟨v, h⟩ hex
      subst ht
      rw [cell_applyChanges_not_mem L _ r c
        (fun u hu => ⟨(hbL u hu).1, (hbL u hu).2.2.1⟩)
        (fun s hs => hex ⟨s, hs⟩)]
      obtain ⟨_, h2, _, h4⟩ := hb _ (List.mem_cons_self ..)
      have h2' : (r : Int) < (g.length : Int) := h2
      have h4' : (c : Int) < ((g.getD r []).length : Int) := h4
      simp only [Int.toNat_natCast]
      exact cell_setCell_same g r c v (by exact_mod_cast h2') (by exact_mod_cast h4')

/-! ## Sum characterizations of the neighbor count -/

theorem sum_map_getD {β : Type} (m : List β) (d : β) (F : β → Nat) :
    (m.map F).sum = ∑ i in Finset.range m.length, F (m.getD i d) := by
  induction m with
  | nil => simp
  | cons b t ih =>
    simp only [List.map_cons, List.sum_cons, List.length_cons]
    rw [Finset.sum_range_succ']
    simp only [List.getD_cons_succ, List.getD_cons_zero]
    rw [← ih]
    omega

theorem countP_eq_sum_map {β : Type} (m : List β) (p : β → Bool) :
    m.countP p = ((m.map (fun v => if p v then 1 else 0)).sum : Nat) := by
  induction m with
  | nil => rfl
  | cons b t ih =>
    rw [List.countP_cons, List.map_cons, List.sum_cons, ih]
    by_cases h : p b
    · simp [h]
      omega
    · simp [h]

theorem getD_drop_take {β : Type} (l : List β) (d : β) (a k i : Nat)
    (h : i < k) : ((l.drop a).take k).getD i d = l.getD (a + i) d := by
  simp [List.getD_eq_getElem?_getD, List.getElem?_take, h, List.getElem?_drop]

theorem length_drop_take {β : Type} (l : List β) (a k : Nat) :
    ((l.drop a).take k).length = min k (l.length - a) := by
  simp [List.length_take, List.length_drop]

theorem sum_map_drop_take {β : Type} (l : List β) (d : β) (F : β → Nat) (a k : Nat) :
    (((l.drop a).take k).map F).sum
      = ∑ i in Finset.Ico a (min (a + k) l.length), F (l.getD i d) := by
  rw [sum_map_getD _ d, length_drop_take, Finset.sum_Ico_eq_sum_range]
  have hmin : min (a + k) l.length - a = min k (l.length - a) := by omega
  rw [hmin]
  apply Finset.sum_congr rfl
  intro i hi
  rw [getD_drop_take _ _ _ _ _ (by simp only [Finset.mem_range] at hi; omega)]

/-- `head_check` as a double sum over the clipped index window. -/
theorem head_check_eq_sum (g : Grid) (r c : Nat) :
    head_check g r c =
      ∑ i in Finset.Ico (r - 1) (min (r + 2) g.length),
        ∑ j in Finset.Ico (c - 1) (min (c + 2) (g.getD i []).length),
          (if cell g i j = 1 then 1 else 0) := by
  rw [head_check, sum_map_drop_take g ([] : List Int) _ (r - 1) (r + 2 - (r - 1))]
  have h2 : (r - 1) + (r + 2 - (r - 1)) = r + 2 := by omega
  rw [h2]
  apply Finset.sum_congr rfl
  intro i _
  rw [countP_eq_sum_map, sum_map_drop_take _ (0 : Int) _ (c - 1) (c + 2 - (c - 1))]
  have h3 : (c - 1) + (c + 2 - (c - 1)) = c + 2 := by omega
  rw [h3]
  apply Finset.sum_congr rfl
  intro j _
  simp [cell, beq_iff_eq]

/-- `mooreHeads` as a double sum over all coordinates. -/
theorem mooreHeads_eq_sum (g : Grid) (r c : Nat) :
    mooreHeads g r c =
      ∑ i in Finset.range g.length,
        ∑ j in Finset.range (g.getD i []).length,
          (if ((i + 1 = r ∨ i = r ∨ i = r + 1) ∧ (j + 1 = c ∨ j = c ∨ j = c + 1) ∧
               ¬(i = r ∧ j = c) ∧ cell g i j = 1) then 1 else 0) := by
  rw [mooreHeads, sum_map_getD _ (0 : Nat), List.length_range]
  apply Finset.sum_congr rfl
  intro i hi
  simp only [Finset.mem_range] at hi
  rw [List.getD_eq_getElem?_getD, List.getElem?_range hi, Option.getD_some,
    ← List.countP_eq_length_filter, countP_eq_sum_map, sum_map_getD _ (0 : Nat),
    List.length_range]
  apply Finset.sum_congr rfl
  intro j hj
  simp only [Finset.mem_range] at hj
  rw [List.getD_eq_getElem?_getD, List.getElem?_range hj, Option.getD_some]
  simp only [decide_eq_true_eq, cell]

/-- `(Finset.range n).filter` of a window is an `Ico`. -/
theorem filter_range_Ico (n a b : Nat) :
    (Finset.range n).filter (fun i => a ≤ i ∧ i < b) = Finset.Ico a (min b n) := by
  ext i
  simp only [Finset.mem_filter, Finset.mem_range, Finset.mem_Ico]
  omega

/-- The source's sliced-window head count agrees with the claim-level
Moore-neighborhood head count whenever the centre cell is not itself an
ElectronHead (the slice includes the centre, the Moore neighborhood
excludes it). -/
theorem head_check_eq_mooreHeads (g : Grid) (r c : Nat)
    (hself : cell g r c ≠ 1) : head_check g r c = mooreHeads g r c := by
  rw [head_check_eq_sum, mooreHeads_eq_sum,
    ← filter_range_Ico g.length (r - 1) (r + 2), Finset.sum_filter]
  apply Finset.sum_congr rfl
  intro i _
  by_cases hadj : r - 1 ≤ i ∧ i < r + 2
  · rw [if_pos hadj, ← filter_range_Ico (g.getD i []).length (c - 1) (c + 2),
      Finset.sum_filter]
    apply Finset.sum_congr rfl
    intro j _
    by_cases hval : cell g i j = 1
    · by_cases hns : i = r ∧ j = c
      · rcases hns with ⟨h1, h2⟩
        subst h1
        subst h2
        exact absurd hval hself
      · by_cases hcadj : c - 1 ≤ j ∧ j < c + 2
        · rw [if_pos hcadj, if_pos hval,
            if_pos ⟨by omega, by omega, hns, hval⟩]
        · rw [if_neg hcadj, if_neg]
          rintro ⟨_, hc2, _, _⟩
          exact hcadj (by omega)
    · simp [hval]
  · rw [if_neg hadj]
    symm
    apply Finset.sum_eq_zero
    intro j _
    rw [if_neg]
    rintro ⟨hr1, _, _, _⟩
    exact hadj (by omega)

/-- Changing a non-head cell into another non-head value changes no
head count anywhere in the grid. -/
theorem head_check_setCell (g : Grid) (rx cx : Nat) (v : Int)
    (hold : cell g rx cx ≠ 1) (hnew : v ≠ 1) (r c : Nat) :
    head_check (setCell g rx cx v) r c = head_check g r c := by
  rw [head_check_eq_sum, head_check_eq_sum, length_setCell]
  apply Finset.sum_congr rfl
  intro i hi
  rw [length_getD_setCell]
  apply Finset.sum_congr rfl
  intro j hj
  by_cases hij : rx = i ∧ cx = j
  · rcases hij with ⟨h1, h2⟩
    subst h1
    subst h2
    simp only [Finset.mem_Ico] at hi hj
    have hi' : rx < g.length := by omega
    have hj' : cx < (g.getD rx []).length := by omega
    rw [cell_setCell_same g rx cx v hi' hj', if_neg hnew, if_neg hold]
  · rw [cell_setCell_ne g rx cx v i j hij]

/-! ## The change set: membership, bounds, uniqueness -/

theorem mem_cycle_loop {g : Grid} {r c : Nat} {s : Int} :
    ((r : Int), (c : Int), s) ∈ cycle_loop g ↔
      r < g.length ∧ c < (g.getD r []).length ∧
        state_future g r c (cell g r c) = some s := by
  simp only [cycle_loop, List.mem_flatMap, List.mem_filterMap, List.mem_range,
    Option.map_eq_some']
  constructor
  · rintro ⟨rx, hrx, cx, hcx, s', hs', heq⟩
    simp only [Prod.mk.injEq, Int.natCast_inj] at heq
    obtain ⟨h1, h2, h3⟩ := heq
    subst h1
    subst h2
    subst h3
    exact ⟨hrx, hcx, hs'⟩
  · rintro ⟨h1, h2, h3⟩
    exact ⟨r, h1, c, h2, s, h3, rfl⟩

theorem cycle_loop_shape {g : Grid} {t : ChangeRecord} (h : t ∈ cycle_loop g) :
    ∃ (r c : Nat) (s : Int), t = ((r : Int), (c : Int), s) := by
  simp only [cycle_loop, List.mem_flatMap, List.mem_filterMap, List.mem_range,
    Option.map_eq_some'] at h
  obtain ⟨rx, _, cx, _, s', _, heq⟩ := h
  exact ⟨rx, cx, s', heq.symm⟩

theorem cycle_loop_inBounds {g : Grid} : ∀ t ∈ cycle_loop g, inBounds g t := by
  intro t ht
  obtain ⟨r, c, s, rfl⟩ := cycle_loop_shape ht
  obtain ⟨h1, h2, _⟩ := mem_cycle_loop.mp ht
  refine ⟨Int.natCast_nonneg r, ?_, Int.natCast_nonneg c, ?_⟩
  · show (r : Int) < (g.length : Int)
    exact_mod_cast h1
  · show (c : Int) < (((g.getD ((r : Int)).toNat []).length : Nat) : Int)
    simp only [Int.toNat_natCast]
    exact_mod_cast h2

/-- The committed value at an in-bounds coordinate: the computed future
state when one exists, the pre-step value otherwise. -/
theorem step_cell_eq (g : Grid) (r c : Nat) (hr : r < g.length)
    (hc : c < (g.getD r []).length) :
    cell (applyChanges g (cycle_loop g)) r c
      = (state_future g r c (cell g r c)).getD (cell g r c) := by
  by_cases hex : ∃ s, ((r : Int), (c : Int), s) ∈ cycle_loop g
  · obtain ⟨s, hs⟩ := hex
    have hsf : state_future g r c (cell g r c) = some s :=
      (mem_cycle_loop.mp hs).2.2
    rw [cell_applyChanges_mem _ _ r c s cycle_loop_inBounds
      (fun s' hs' => by
        have h' := (mem_cycle_loop.mp hs').2.2
        rw [hsf] at h'
        exact (Option.some_inj.mp h'.symm)) hs, hsf]
    rfl
  · rw [cell_applyChanges_not_mem _ _ r c
      (fun t ht => ⟨(cycle_loop_inBounds t ht).1, (cycle_loop_inBounds t ht).2.2.1⟩)
      (fun s hs => hex ⟨s, hs⟩)]
    cases h : state_future g r c (cell g r c) with
    | none => rfl
    | some s => exact absurd ⟨s, mem_cycle_loop.mpr ⟨hr, hc, h⟩⟩ hex

theorem cycle_states_ok (g : Grid) (h2d : check_2d_array g = true) :
    cycle_states g = .ok (cycle_loop g) := by
  simp only [cycle_states, cleanse_array, if_pos h2d]

theorem advance_step_ok (g : Grid) (h2d : check_2d_array g = true) :
    advance_step g = .ok (applyChanges g (cycle_loop g)) := by
  rw [advance_step, cycle_states_ok g h2d]
  exact update_states_ok _ _ cycle_loop_inBounds

/-! ## Claim C1: the transition rule -/

/-- C1: For every rectangular grid whose cells are in
{Empty=0, ElectronHead=1, ElectronTail=2, Conductor=3}, one step of the
transition rule (`cycle_states` applied and then committed by
`update_states`, i.e. `advance_step`) maps Empty to Empty, ElectronHead
to ElectronTail, ElectronTail to Conductor, and maps a Conductor to
ElectronHead if and only if the number of ElectronHead cells in its Moore
neighborhood clipped to the grid bounds (`mooreHeads`: no wrap-around, no
synthetic padding) is exactly 1 or 2.  Every cell's new state is given by
a function of the pre-step grid `g` alone, never by another cell's
already-updated state. -/
theorem transition_rule_correct (g : Grid) (h2d : check_2d_array g = true)
    (hvals : ∀ row ∈ g, ∀ v ∈ row, v = 0 ∨ v = 1 ∨ v = 2 ∨ v = 3)
    (r c : Nat) (hr : r < g.length) (hc : c < (g.getD r []).length) :
    ∃ g', advance_step g = .ok g' ∧
      cell g' r c =
        (if cell g r c = 0 then 0
         else if cell g r c = 1 then 2
         else if cell g r c = 2 then 3
         else if mooreHeads g r c = 1 ∨ mooreHeads g r c = 2 then 1
         else 3) := by
  refine ⟨_, advance_step_ok g h2d, ?_⟩
  rw [step_cell_eq g r c hr hc]
  have hrowmem : g.getD r [] ∈ g := by
    rw [List.getD_eq_getElem g [] hr]
    exact List.getElem_mem hr
  have hcellmem : cell g r c ∈ g.getD r [] := by
    rw [cell, List.getD_eq_getElem _ _ hc]
    exact List.getElem_mem hc
  rcases hvals _ hrowmem _ hcellmem with h | h | h | h
  · rw [h]
    simp [state_future]
  · rw [h]
    simp [state_future]
  · rw [h]
    simp [state_future]
  · rw [h]
    have hself : cell g r c ≠ 1 := by
      rw [h]
      decide
    simp only [state_future, head_check_eq_mooreHeads g r c hself]
    by_cases hh : mooreHeads g r c = 1 ∨ mooreHeads g r c = 2
    · simp [hh]
    · simp [hh]

/-- Witness for C1: the spec's literal 3×3 example (a single ElectronHead
surrounded by 8 Conductors); the centre cell becomes an ElectronTail. -/
theorem transition_rule_correct_witness :
    ∃ g', advance_step [[3,3,3],[3,1,3],[3,3,3]] = .ok g' ∧
      cell g' 1 1 =
        (if cell [[3,3,3],[3,1,3],[3,3,3]] 1 1 = 0 then 0
         else if cell [[3,3,3],[3,1,3],[3,3,3]] 1 1 = 1 then 2
         else if cell [[3,3,3],[3,1,3],[3,3,3]] 1 1 = 2 then 3
         else if mooreHeads [[3,3,3],[3,1,3],[3,3,3]] 1 1 = 1 ∨
                 mooreHeads [[3,3,3],[3,1,3],[3,3,3]] 1 1 = 2 then 1
         else 3) :=
  transition_rule_correct [[3,3,3],[3,1,3],[3,3,3]] (by decide)
    (by decide) 1 1 (by decide) (by decide)

/-! ## Claim C2: the change set -/

/-- A computed future state always differs from the current state (1 maps
to 2, 2 maps to 3, 3 maps to 1). -/
theorem state_future_ne (g : Grid) (r c : Nat) (v s : Int)
    (h : state_future g r c v = some s) : s ≠ v := by
  rw [state_future] at h
  split_ifs at h with h1 h2 h3
  · rw [Option.some_inj] at h
    omega
  · rw [Option.some_inj] at h
    omega

/-- The change set carries at most one record per coordinate. -/
theorem cycle_loop_coords_nodup (g : Grid) :
    ((cycle_loop g).map (fun t => (t.1, t.2.1))).Nodup := by
  rw [cycle_loop, List.map_flatMap, List.nodup_flatMap]
  constructor
  · intro rx _
    rw [List.map_filterMap]
    apply List.Nodup.filterMap ?_ (List.nodup_range _)
    intro a a' b hb hb'
    rw [Option.mem_def, Option.map_map, Option.map_eq_some'] at hb hb'
    obtain ⟨s, _, hb2⟩ := hb
    obtain ⟨s', _, hb2'⟩ := hb'
    simp only [Function.comp_apply] at hb2 hb2'
    rw [← hb2'] at hb2
    simp only [Prod.mk.injEq, Int.natCast_inj] at hb2
    exact hb2.2
  · refine List.Pairwise.imp ?_ (List.nodup_range g.length)
    intro rx rx' hne b hb hb'
    simp only [List.mem_map, List.mem_filterMap, List.mem_range,
      Option.map_eq_some'] at hb hb'
    obtain ⟨t, ⟨cx, _, s, _, hts⟩, htb⟩ := hb
    obtain ⟨t', ⟨cx', _, s', _, hts'⟩, htb'⟩ := hb'
    rw [← hts] at htb
    rw [← hts'] at htb'
    have h1 : b.1 = (rx : Int) := by rw [← htb]
    have h2 : b.1 = (rx' : Int) := by rw [← htb']
    rw [h1] at h2
    exact hne (by exact_mod_cast h2)

/-- C2: For every valid grid A, `cycle_states` succeeds and committing its
change set with `update_states` succeeds; the committed grid is exactly
the result of applying every change record onto an independent (pure)
copy of A; the change set contains at most one record per coordinate;
every record's new state differs from A's value there and is the
post-step grid's value there; and if the step leaves every cell unchanged
(the committed grid equals A) the change set is empty. -/
theorem change_set_correct (g : Grid) (h2d : check_2d_array g = true) :
    ∃ changes g',
      cycle_states g = .ok changes ∧
      update_states g changes = .ok g' ∧
      g' = applyChanges g changes ∧
      (changes.map (fun t => (t.1, t.2.1))).Nodup ∧
      (∀ (r c : Nat) (s : Int), ((r : Int), (c : Int), s) ∈ changes →
        s ≠ cell g r c ∧ cell g' r c = s) ∧
      (g' = g → changes = []) := by
  refine ⟨cycle_loop g, applyChanges g (cycle_loop g), cycle_states_ok g h2d,
    update_states_ok _ _ cycle_loop_inBounds, rfl, cycle_loop_coords_nodup g,
    ?_, ?_⟩
  · intro r c s hmem
    obtain ⟨hr, hc, hsf⟩ := mem_cycle_loop.mp hmem
    refine ⟨state_future_ne g r c _ s hsf, ?_⟩
    rw [step_cell_eq g r c hr hc, hsf]
    rfl
  · intro hgg
    by_contra hne
    obtain ⟨t, ht⟩ := List.exists_mem_of_ne_nil _ hne
    obtain ⟨r, c, s, rfl⟩ := cycle_loop_shape ht
    obtain ⟨hr, hc, hsf⟩ := mem_cycle_loop.mp ht
    have h1 : cell (applyChanges g (cycle_loop g)) r c = s := by
      rw [step_cell_eq g r c hr hc, hsf]
      rfl
    rw [hgg] at h1
    exact state_future_ne g r c _ s hsf h1.symm

/-- Witness for C2 at the 1×2 grid `[[1, 3]]`. -/
theorem change_set_correct_witness :
    ∃ changes g',
      cycle_states [[1, 3]] = .ok changes ∧
      update_states [[1, 3]] changes = .ok g' ∧
      g' = applyChanges [[1, 3]] changes ∧
      (changes.map (fun t => (t.1, t.2.1))).Nodup ∧
      (∀ (r c : Nat) (s : Int), ((r : Int), (c : Int), s) ∈ changes →
        s ≠ cell [[1, 3]] r c ∧ cell g' r c = s) ∧
      (g' = [[1, 3]] → changes = []) :=
  change_set_correct [[1, 3]] (by decide)

/-! ## Claim C10: out-of-range cell values are inert -/

theorem state_future_invalid (g : Grid) (r c : Nat) (v : Int)
    (hv : ¬(v = 0 ∨ v = 1 ∨ v = 2 ∨ v = 3)) :
    state_future g r c v = none := by
  rw [state_future, if_neg (by tauto), if_neg (by tauto)]

/-- C10: For every grid containing a cell whose value lies outside
{0,1,2,3}, one step of the transition rule emits no change record for
that cell (so the invalid value persists unchanged across the committed
step), and the invalid value contributes 0 to every Conductor's
ElectronHead count: only cells exactly equal to 1 are counted, so
replacing the invalid value by Empty changes no `head_check` anywhere. -/
theorem invalid_value_inert (g : Grid) (h2d : check_2d_array g = true)
    (rx cx : Nat) (hr : rx < g.length) (hc : cx < (g.getD rx []).length)
    (hv : ¬(cell g rx cx = 0 ∨ cell g rx cx = 1 ∨ cell g rx cx = 2 ∨
            cell g rx cx = 3)) :
    (∀ changes, cycle_states g = .ok changes →
      ∀ s : Int, ((rx : Int), (cx : Int), s) ∉ changes) ∧
    (∃ g', advance_step g = .ok g' ∧ cell g' rx cx = cell g rx cx) ∧
    (∀ r c : Nat, head_check (setCell g rx cx 0) r c = head_check g r c) := by
  have hnone := state_future_invalid g rx cx _ hv
  refine ⟨?_, ⟨_, advance_step_ok g h2d, ?_⟩, ?_⟩
  · intro changes hch s hs
    rw [cycle_states_ok g h2d, Except.ok.injEq] at hch
    rw [← hch] at hs
    have h' := (mem_cycle_loop.mp hs).2.2
    rw [hnone] at h'
    cases h'
  · rw [step_cell_eq g rx cx hr hc, hnone]
    rfl
  · intro r c
    exact head_check_setCell g rx cx 0
      (fun h1 => hv (Or.inr (Or.inl h1))) (by decide) r c

/-- Witness for C10 at the grid `[[5, 3]]` (the value 5 is invalid). -/
theorem invalid_value_inert_witness :
    (∀ changes, cycle_states [[5, 3]] = .ok changes →
      ∀ s : Int, ((0 : Int), (0 : Int), s) ∉ changes) ∧
    (∃ g', advance_step [[5, 3]] = .ok g' ∧
      cell g' 0 0 = cell [[5, 3]] 0 0) ∧
    (∀ r c : Nat,
      head_check (setCell [[5, 3]] 0 0 0) r c = head_check [[5, 3]] r c) :=
  invalid_value_inert [[5, 3]] (by decide) 0 0 (by decide) (by decide)
    (by decide)

/-! ## Claims about `resize_array` -/

theorem check_2d_iff (g : Grid) :
    check_2d_array g = true ↔
      g ≠ [] ∧ ∀ r ∈ g, r.length = (g.headD []).length := by
  simp [check_2d_array, List.all_eq_true, List.isEmpty_iff]

/-- C8: For every 2-D grid and every valid edge, resizing with a count
of 0 fails (the source raises "Invalid ranks value. Must be more or less
than 0" rather than performing a no-op); the input grid is not touched
(`np.delete`/`np.insert` were never reached, and `resize_array` never
mutates its argument). -/
theorem resize_zero_invalid (g : Grid) (face : String)
    (h2d : check_2d_array g = true)
    (hface : face = "n" ∨ face = "s" ∨ face = "e" ∨ face = "w") :
    resize_array g face 0 = .error .invalidResize := by
  simp only [resize_array, h2d]
  rw [if_neg (by simp), if_neg (by tauto), if_neg (by decide), if_neg (by decide)]

/-- Witness for C8 on the 1×1 Conductor grid with the North edge. -/
theorem resize_zero_invalid_witness :
    resize_array [[3]] "n" 0 = .error .invalidResize :=
  resize_zero_invalid [[3]] "n" (by decide) (Or.inl rfl)

/-- C6: Every successful `resize_array` call reports `axis_shift = 0` for
the row-axis edges North/South (`"n"`/`"s"`) and `1` for the column-axis
edges East/West (`"e"`/`"w"`), and reports `rank_shift` equal to the
count for North/West and `0` for East/South — in particular West, +1
gives `(1, 1)` and East, +1 gives shift `0`. -/
theorem resize_shift_correct (g : Grid) (face : String) (ranks : Int)
    (g' : Grid) (axis : Nat) (shift : Int)
    (h : resize_array g face ranks = .ok (g', axis, shift)) :
    ((face = "n" ∨ face = "s") → axis = 0) ∧
    ((face = "e" ∨ face = "w") → axis = 1) ∧
    ((face = "n" ∨ face = "w") → shift = ranks) ∧
    ((face = "e" ∨ face = "s") → shift = 0) := by
  simp only [resize_array] at h
  by_cases h2d : check_2d_array g = true
  · rw [if_neg (by simp [h2d])] at h
    by_cases hval : face = "n" ∨ face = "s" ∨ face = "e" ∨ face = "w"
    · rw [if_neg (by tauto)] at h
      have key : axis = (if face = "n" ∨ face = "s" then 0 else 1) ∧
          shift = (if face = "n" ∨ face = "w" then ranks else 0) := by
        by_cases hneg : ranks < 0
        · rw [if_pos hneg] at h
          simp only [Except.ok.injEq, Prod.mk.injEq] at h
          exact ⟨h.2.1.symm, h.2.2.symm⟩
        · rw [if_neg hneg] at h
          by_cases hpos : ranks > 0
          · rw [if_pos hpos] at h
            simp only [Except.ok.injEq, Prod.mk.injEq] at h
            exact ⟨h.2.1.symm, h.2.2.symm⟩
          · rw [if_neg hpos] at h
            exact absurd h (by simp)
      obtain ⟨ha, hs⟩ := key
      refine ⟨fun hf => ?_, fun hf => ?_, fun hf => ?_, fun hf => ?_⟩
      · rw [ha, if_pos hf]
      · rcases hf with hf | hf <;> subst hf <;> rw [ha, if_neg (by decide)]
      · rw [hs, if_pos hf]
      · rcases hf with hf | hf <;> subst hf <;> rw [hs, if_neg (by decide)]
    · rw [if_pos (by tauto)] at h
      exact absurd h (by simp)
  · rw [if_pos (by simp [h2d])] at h
    exact absurd h (by simp)

/-- Witness for C6: West/+1 on the 1×1 grid reports axis 1, shift 1, and
East/+1 reports shift 0. -/
theorem resize_shift_correct_witness :
    ((("w" : String) = "n" ∨ ("w" : String) = "s") → (1 : Nat) = 0) ∧
    ((("w" : String) = "e" ∨ ("w" : String) = "w") → (1 : Nat) = 1) ∧
    ((("w" : String) = "n" ∨ ("w" : String) = "w") → (1 : Int) = 1) ∧
    ((("w" : String) = "e" ∨ ("w" : String) = "s") → (1 : Int) = 0) :=
  resize_shift_correct [[3]] "w" 1 [[0, 3]] 1 1 (by rfl)

/-- C9: Inserting 2 rows at North prepends 2 all-Empty rows (existing
content preserved unchanged below them), and deleting 2 rows at North on
the result restores a grid identical in shape and content to the
original. -/
theorem resize_north_roundtrip (g : Grid) (h2d : check_2d_array g = true) :
    resize_array g ("n") 2 =
      .ok (List.replicate 2 (List.replicate (g.headD []).length 0) ++ g, 0, 2) ∧
    resize_array
        (List.replicate 2 (List.replicate (g.headD []).length 0) ++ g) "n" (-2)
      = .ok (g, 0, -2) := by
  obtain ⟨hne, hrows⟩ := (check_2d_iff g).mp h2d
  have h2d' : check_2d_array
      (List.replicate 2 (List.replicate (g.headD []).length 0) ++ g) = true := by
    rw [check_2d_iff]
    refine ⟨by simp, ?_⟩
    intro r hr
    have hhead : (List.replicate 2 (List.replicate (g.headD []).length 0)
        ++ g).headD [] = List.replicate (g.headD []).length 0 := by
      simp
    rw [hhead, List.length_replicate]
    rcases List.mem_append.mp hr with hm | hm
    · rw [List.eq_of_mem_replicate hm, List.length_replicate]
    · exact hrows r hm
  constructor
  · simp only [resize_array, h2d]
    rw [if_neg (by simp), if_neg (by decide), if_neg (by decide),
      if_pos (by decide)]
    simp
  · simp only [resize_array, h2d']
    rw [if_neg (by simp), if_neg (by decide), if_pos (by decide)]
    have hdrop : (List.replicate 2 (List.replicate (g.headD []).length (0 : Int))
        ++ g).drop 2 = g := List.drop_left' (List.length_replicate ..)
    simp [hdrop]

/-- Witness for C9 on a 1×2 grid. -/
theorem resize_north_roundtrip_witness :
    resize_array [[1, 3]] "n" 2 =
      .ok (List.replicate 2 (List.replicate
        (List.headD [[1, 3]] []).length 0) ++ [[1, 3]], 0, 2) ∧
    resize_array (List.replicate 2 (List.replicate
        (List.headD [[1, 3]] []).length 0) ++ [[1, 3]]) "n" (-2)
      = .ok ([[1, 3]], 0, -2) :=
  resize_north_roundtrip [[1, 3]] (by decide)

/-- C4 counterexample: deleting 1 row at North from the 1×1 grid `[[3]]`
does NOT fail with InvalidResize — `np.delete` clamps the slice, the call
succeeds, and it returns the empty (0-row) grid, i.e. a grid with a
zero-length dimension, not the unmodified input. -/
theorem resize_delete_counterexample :
    resize_array [[3]] "n" (-1) = .ok ([], 0, -1) ∧
    ¬ resize_array [[3]] "n" (-1) = .error .invalidResize := by
  refine ⟨rfl, fun h => ?_⟩
  rw [show resize_array [[3]] "n" (-1) = .ok ([], 0, -1) from rfl] at h
  exact Except.noConfusion h

/-- C4 amended: For every 2-D grid, valid edge, and negative count,
`resize_array` never fails: `np.delete` silently clamps the deletion to
what is available, so the affected dimension of the result is
`dim - |count|` truncated at 0 (possibly 0, i.e. below 1), while the
other dimension is untouched. -/
theorem resize_delete_clamps (g : Grid) (h2d : check_2d_array g = true)
    (face : String)
    (hface : face = "n" ∨ face = "s" ∨ face = "e" ∨ face = "w")
    (ranks : Int) (hneg : ranks < 0) :
    ∃ out : Grid,
      resize_array g face ranks =
        .ok (out, (if face = "n" ∨ face = "s" then 0 else 1),
             (if face = "n" ∨ face = "w" then ranks else 0)) ∧
      out.length = (if face = "n" ∨ face = "s"
          then g.length - ranks.natAbs else g.length) ∧
      (∀ r ∈ out, r.length = (if face = "e" ∨ face = "w"
          then (g.headD []).length - ranks.natAbs
          else (g.headD []).length)) := by
  obtain ⟨-, hrows⟩ := (check_2d_iff g).mp h2d
  rcases hface with hf | hf | hf | hf <;> subst hf
  · refine ⟨g.drop ranks.natAbs, ?_, ?_, ?_⟩
    · simp only [resize_array, h2d]
      rw [if_neg (by simp), if_neg (by decide), if_pos hneg]
      simp
    · simp [List.length_drop]
    · intro r hr
      simp only [if_neg (by decide : ¬(("n" : String) = "e" ∨ ("n" : String) = "w"))]
      exact hrows r (List.mem_of_mem_drop hr)
  · refine ⟨g.take (g.length - ranks.natAbs), ?_, ?_, ?_⟩
    · simp only [resize_array, h2d]
      rw [if_neg (by simp), if_neg (by decide), if_pos hneg]
      simp
    · rw [if_pos (by decide : (("s" : String) = "n" ∨ ("s" : String) = "s")),
        List.length_take]
      omega
    · intro r hr
      simp only [if_neg (by decide : ¬(("s" : String) = "e" ∨ ("s" : String) = "w"))]
      exact hrows r (List.mem_of_mem_take hr)
  · refine ⟨g.map (fun r => r.take ((g.headD []).length - ranks.natAbs)),
      ?_, ?_, ?_⟩
    · simp only [resize_array, h2d]
      rw [if_neg (by simp), if_neg (by decide), if_pos hneg]
      simp
    · simp
    · intro r hr
      obtain ⟨r₀, hr₀, rfl⟩ := List.mem_map.mp hr
      rw [if_pos (by decide : (("e" : String) = "e" ∨ ("e" : String) = "w")),
        List.length_take, hrows r₀ hr₀]
      omega
  · refine ⟨g.map (fun r => r.drop ranks.natAbs), ?_, ?_, ?_⟩
    · simp only [resize_array, h2d]
      rw [if_neg (by simp), if_neg (by decide), if_pos hneg]
      simp
    · simp
    · intro r hr
      obtain ⟨r₀, hr₀, rfl⟩ := List.mem_map.mp hr
      rw [if_pos (by decide : (("w" : String) = "e" ∨ ("w" : String) = "w")),
        List.length_drop, hrows r₀ hr₀]

/-- Witness for the amended C4 on the 1×1 grid, North, count −1. -/
theorem resize_delete_clamps_witness :
    ∃ out : Grid,
      resize_array [[3]] "n" (-1) =
        .ok (out, (if ("n" : String) = "n" ∨ ("n" : String) = "s" then 0 else 1),
             (if ("n" : String) = "n" ∨ ("n" : String) = "w" then (-1 : Int) else 0)) ∧
      out.length = (if ("n" : String) = "n" ∨ ("n" : String) = "s"
          then List.length [[(3 : Int)]] - (-1 : Int).natAbs
          else List.length [[(3 : Int)]]) ∧
      (∀ r ∈ out, r.length = (if ("n" : String) = "e" ∨ ("n" : String) = "w"
          then (List.headD [[(3 : Int)]] []).length - (-1 : Int).natAbs
          else (List.headD [[(3 : Int)]] []).length)) :=
  resize_delete_clamps [[3]] (by decide) "n" (Or.inl rfl) (-1) (by decide)

/-! ## Claim C5: out-of-bounds single-cell writes -/

theorem np_index_eq (dim : Nat) (i : Int) :
    np_index dim i =
      (if -(dim : Int) ≤ i ∧ i < (dim : Int)
       then some ((if 0 ≤ i then i else i + dim).toNat) else none) := by
  rw [np_index]
  by_cases h1 : 0 ≤ i ∧ i < (dim : Int)
  · rw [if_pos h1, if_pos (by omega), if_pos h1.1]
  · rw [if_neg h1]
    by_cases h2 : -(dim : Int) ≤ i ∧ i < 0
    · rw [if_pos h2, if_pos (by omega), if_neg (by omega)]
    · rw [if_neg h2, if_neg (by omega)]

theorem update_states_single (g : Grid) (t : ChangeRecord) :
    update_states g [t] = np_set2 g t.1 t.2.1 t.2.2 := by
  rw [update_states, List.foldlM_cons]
  cases h : np_set2 g t.1 t.2.1 t.2.2 with
  | error e => simp [h]
  | ok g1 => simp [h]

theorem row_length_of_2d (g : Grid) (h2d : check_2d_array g = true)
    (r : Nat) (hr : r < g.length) :
    (g.getD r []).length = (g.headD []).length := by
  apply (check_2d_iff g).mp h2d |>.2
  rw [List.getD_eq_getElem g [] hr]
  exact List.getElem_mem hr

/-- C5 counterexample: on the 1×2 grid `[[0, 3]]`, the single-cell write
`(0, -1, 1)` has a negative column index, yet it does NOT fail with an
out-of-bounds error — numpy wraps the index and the write lands on the
last column, modifying the grid to `[[0, 1]]`. -/
theorem update_negative_counterexample :
    update_states [[0, 3]] [((0 : Int), (-1 : Int), (1 : Int))] = .ok [[0, 1]] ∧
    ¬ update_states [[0, 3]] [((0 : Int), (-1 : Int), (1 : Int))] =
        .error .outOfBounds := by
  refine ⟨rfl, fun h => ?_⟩
  rw [show update_states [[0, 3]] [((0 : Int), (-1 : Int), (1 : Int))] =
      .ok [[0, 1]] from rfl] at h
  exact Except.noConfusion h

/-- C5 amended: a single-cell write at `(row, col)` fails (with numpy's
IndexError, leaving every cell unmodified) iff `row ∉ [-rows, rows)` or
`col ∉ [-cols, cols)`; an in-range index is used as-is when nonnegative
and wraps to `index + dimension` when negative, and the write then
modifies exactly that cell. -/
theorem update_single_write (g : Grid) (h2d : check_2d_array g = true)
    (row col s : Int) :
    (¬(-(g.length : Int) ≤ row ∧ row < (g.length : Int) ∧
       -((g.headD []).length : Int) ≤ col ∧ col < ((g.headD []).length : Int)) →
      update_states g [(row, col, s)] = .error .outOfBounds) ∧
    ((-(g.length : Int) ≤ row ∧ row < (g.length : Int) ∧
      -((g.headD []).length : Int) ≤ col ∧ col < ((g.headD []).length : Int)) →
      update_states g [(row, col, s)] =
        .ok (setCell g (if 0 ≤ row then row else row + g.length).toNat
          (if 0 ≤ col then col else col + (g.headD []).length).toNat s)) := by
  rw [update_states_single g (row, col, s)]
  constructor
  · intro hout
    by_cases hrow : -(g.length : Int) ≤ row ∧ row < (g.length : Int)
    · -- the row index resolves, so the column index must be out of range
      have hr : ((if 0 ≤ row then row else row + g.length).toNat) < g.length := by
        omega
      have hlen : (g.getD ((if 0 ≤ row then row else row + g.length).toNat) []).length
          = (g.headD []).length := row_length_of_2d g h2d _ hr
      simp only [np_set2, np_index_eq, if_pos hrow, hlen]
      rw [if_neg (by omega)]
    · simp only [np_set2, np_index_eq, if_neg hrow]
  · intro hin
    have hrow : -(g.length : Int) ≤ row ∧ row < (g.length : Int) :=
      ⟨hin.1, hin.2.1⟩
    have hr : ((if 0 ≤ row then row else row + g.length).toNat) < g.length := by
      omega
    have hlen : (g.getD ((if 0 ≤ row then row else row + g.length).toNat) []).length
        = (g.headD []).length := row_length_of_2d g h2d _ hr
    simp only [np_set2, np_index_eq, if_pos hrow, hlen]
    rw [if_pos (by omega)]

/-- Witness for the amended C5 on `[[0, 3]]`: the write `(0, 5, 1)` is
rejected, while the write `(0, -1, 1)` wraps to column 1. -/
theorem update_single_write_witness :
    update_states [[0, 3]] [((0 : Int), (5 : Int), (1 : Int))] =
      .error .outOfBounds ∧
    update_states [[0, 3]] [((0 : Int), (-1 : Int), (1 : Int))] =
      .ok (setCell [[0, 3]]
        (if (0 : Int) ≤ 0 then (0 : Int) else 0 + List.length [[(0 : Int), 3]]).toNat
        (if (0 : Int) ≤ -1 then (-1 : Int)
         else -1 + (List.headD [[(0 : Int), 3]] []).length).toNat 1) :=
  ⟨(update_single_write [[0, 3]] (by decide) 0 5 1).1 (by decide),
   (update_single_write [[0, 3]] (by decide) 0 (-1) 1).2 (by decide)⟩

/-! ## Claim C3: ingestion coercion of invalid values -/

/-- C3 (code bug): the single-value cleanser `cleanse_state` maps the
invalid value 5 to Empty, but `cleanse_array`'s loop only rebinds its
local variable (`c = cleanse_state(c)`) and never writes back, so
ingesting `[[5]]` through `cleanse_array` / `parse_array` stores the
invalid value 5 unchanged — the documented coercion to Empty never
happens on the stored grid. -/
theorem cleanse_array_does_not_coerce :
    cleanse_state 5 = 0 ∧
    cleanse_array [[5]] = .ok [[5]] ∧
    (∃ w', parse_array initialWW [[5]] = .ok w' ∧ w'.array_states = [[5]]) ∧
    ¬((5 : Int) = 0 ∨ (5 : Int) = 1 ∨ (5 : Int) = 2 ∨ (5 : Int) = 3) :=
  ⟨rfl, rfl, ⟨_, rfl, rfl⟩, by decide⟩

/-! ## Claim C7: the viewport (edit box) -/

/-- C7 counterexample: loading a 5×5 grid leaves the edit box dimensions
at (10, 10) — the code never clamps `edit_dimensions` to the grid — so a
(10,10) viewport on a 5×5 grid keeps dimensions (10,10), exceeding the
grid, and the invariant `top_left ≤ grid_dimensions − viewport_dimensions`
fails (0 ≰ 5 − 10). -/
theorem viewport_dimensions_not_clamped :
    parse_array initialWW (List.replicate 5 (List.replicate 5 0)) =
      .ok ⟨List.replicate 5 (List.replicate 5 0), (0, 0), (10, 10)⟩ ∧
    (⟨List.replicate 5 (List.replicate 5 0), (0, 0), (10, 10)⟩ : WW).edit_dimensions
      = (10, 10) ∧
    ¬((10 : Int) ≤ (List.replicate 5 (List.replicate 5 (0 : Int))).length) ∧
    ¬((0 : Int) ≤ ((List.replicate 5 (List.replicate 5 (0 : Int))).length : Int) - 10) :=
  ⟨rfl, rfl, by decide, by decide⟩

/-- C7 amended: the edit-box *position* is clamped by `limit_edit_box`
into `[0, max 0 (grid_dimension − viewport_dimension)]` on the given
axis (so on a grid smaller than the viewport it is forced to 0), and the
viewport *dimensions* are never clamped: `move_edit_box` leaves them
untouched and loading any grid resets them to (10, 10) regardless of the
grid's size. -/
theorem viewport_behavior (w : WW) (axis : Nat) (v ranks : Int) (g : Grid)
    (w' : WW) (hparse : parse_array w g = .ok w') :
    0 ≤ limit_edit_box w axis v ∧
    limit_edit_box w axis v ≤
      max 0 ((if axis = 0 then (w.array_states.length : Int)
              else ((w.array_states.headD []).length : Int)) -
             (if axis = 0 then w.edit_dimensions.1 else w.edit_dimensions.2)) ∧
    (move_edit_box w axis ranks).edit_dimensions = w.edit_dimensions ∧
    w'.edit_dimensions = (10, 10) := by
  refine ⟨?_, ?_, ?_, ?_⟩
  · rw [limit_edit_box]
    omega
  · rw [limit_edit_box]
    by_cases h : axis = 0 <;> simp only [h, if_pos, if_neg, if_true, if_false] <;> omega
  · rw [move_edit_box]
    by_cases h : axis = 0
    · rw [if_pos h]
    · rw [if_neg h]
  · rw [parse_array] at hparse
    cases hch : cleanse_array g with
    | error e => rw [hch] at hparse; exact Except.noConfusion hparse
    | ok arr =>
      rw [hch] at hparse
      have := Except.ok.inj hparse
      rw [← this]
      rfl

/-- Witness for the amended C7: the initial instance, axis 0, candidate
position 7, move by 3, loading the 1×1 grid `[[1]]`. -/
theorem viewport_behavior_witness :
    0 ≤ limit_edit_box initialWW 0 7 ∧
    limit_edit_box initialWW 0 7 ≤
      max 0 ((if (0 : Nat) = 0 then (initialWW.array_states.length : Int)
              else ((initialWW.array_states.headD []).length : Int)) -
             (if (0 : Nat) = 0 then initialWW.edit_dimensions.1
              else initialWW.edit_dimensions.2)) ∧
    (move_edit_box initialWW 0 3).edit_dimensions = initialWW.edit_dimensions ∧
    (⟨[[1]], (0, 0), (10, 10)⟩ : WW).edit_dimensions = (10, 10) :=
  viewport_behavior initialWW 0 7 3 [[1]] ⟨[[1]], (0, 0), (10, 10)⟩ rfl

end Wireworld
